import Mathlib

/-!
Shallow embedding of the linear-algebra core of `gl-test` (files
`src/math.rs` and the duplicate in `src/main.rs`).  `GLfloat` is modelled
as `ℝ`; a Rust accumulation loop `for i in 0..n` with body `acc += f i`
starting from `0.0` is modelled as the indexed sum `∑ i, f i` (addition on
`ℝ` is associative and commutative, so the iteration order of the loop is
immaterial).  Vectors `VecN([GLfloat; N])` become `Fin N → ℝ` and
`Mat4([[GLfloat; 4]; 4])` becomes `Fin 4 → Fin 4 → ℝ` with row-major
indexing `M i j = M[i][j]`.
-/

noncomputable section

namespace GlTest

/-- The vector types generated by the `define_vec!` macro of `math.rs`: an
ordered, fixed-length sequence of floating-point components. -/
abbrev Vec (n : ℕ) := Fin n → ℝ

abbrev Vec3 := Vec 3
abbrev Vec4 := Vec 4

namespace Vec

/-- `VecN::zero` in `math.rs`: `[0.0; N]`, all components `0.0`. -/
def zero (n : ℕ) : Vec n := fun _ => 0

/-- `VecN::dot` in `math.rs`: the accumulation loop
`result += self[i] * other[i]` starting from `0.0`. -/
def dot {n : ℕ} (a b : Vec n) : ℝ := ∑ i, a i * b i

/-- `VecN::length_squared` in `math.rs`: `self.dot(self)`. -/
def length_squared {n : ℕ} (v : Vec n) : ℝ := dot v v

/-- `VecN::length` in `math.rs`: `self.length_squared().sqrt()`. -/
def length {n : ℕ} (v : Vec n) : ℝ := Real.sqrt (length_squared v)

/-- `VecN::normalize` in `math.rs`: the length is computed once, before the
loop, and then every component is divided by it in place
(`self[i] /= length`). -/
def normalize {n : ℕ} (v : Vec n) : Vec n :=
  let length := v.length
  fun i => v i / length

/-- `impl Add for VecN` in `math.rs`: component-wise addition into a fresh
zero vector. -/
def add {n : ℕ} (a b : Vec n) : Vec n := fun i => a i + b i

/-- `impl Sub for VecN` in `math.rs`: component-wise subtraction into a
fresh zero vector. -/
def sub {n : ℕ} (a b : Vec n) : Vec n := fun i => a i - b i

end Vec

/-- `Vec3::cross` in `math.rs`, exactly as written there. -/
def Vec3.cross (a b : Vec3) : Vec3 :=
  ![a 1 * b 2 - a 2 * b 1,
    a 2 * b 0 - a 0 * b 2,
    a 0 * b 1 - a 1 * b 0]

/-- `Mat4` in `math.rs`: a 4×4 array of floats, row-major. -/
abbrev Mat4 := Fin 4 → Fin 4 → ℝ

namespace Mat4

/-- `Mat4::zero` in `math.rs`. -/
def zero : Mat4 :=
  ![![0, 0, 0, 0],
    ![0, 0, 0, 0],
    ![0, 0, 0, 0],
    ![0, 0, 0, 0]]

/-- `Mat4::identity` in `math.rs`. -/
def identity : Mat4 :=
  ![![1, 0, 0, 0],
    ![0, 1, 0, 0],
    ![0, 0, 1, 0],
    ![0, 0, 0, 1]]

/-- `Mat4::scale` in `math.rs`. -/
def scale (x y z : ℝ) : Mat4 :=
  ![![x, 0, 0, 0],
    ![0, y, 0, 0],
    ![0, 0, z, 0],
    ![0, 0, 0, 1]]

/-- `Mat4::translate` in `math.rs`. -/
def translate (x y z : ℝ) : Mat4 :=
  ![![1, 0, 0, x],
    ![0, 1, 0, y],
    ![0, 0, 1, z],
    ![0, 0, 0, 1]]

/-- `Mat4::rotate_x` in `math.rs`. -/
def rotate_x (angle : ℝ) : Mat4 :=
  let cos := Real.cos angle
  let sin := Real.sin angle
  ![![1, 0, 0, 0],
    ![0, cos, -sin, 0],
    ![0, sin, cos, 0],
    ![0, 0, 0, 1]]

/-- `Mat4::rotate_y` in `math.rs`. -/
def rotate_y (angle : ℝ) : Mat4 :=
  let cos := Real.cos angle
  let sin := Real.sin angle
  ![![cos, 0, sin, 0],
    ![0, 1, 0, 0],
    ![-sin, 0, cos, 0],
    ![0, 0, 0, 1]]

/-- `Mat4::rotate_z` in `math.rs`. -/
def rotate_z (angle : ℝ) : Mat4 :=
  let cos := Real.cos angle
  let sin := Real.sin angle
  ![![cos, -sin, 0, 0],
    ![sin, cos, 0, 0],
    ![0, 0, 1, 0],
    ![0, 0, 0, 1]]

/-- `Mat4::look_at` in `math.rs`: `z = normalize(eye - center)`, `y = up`,
`x = y.cross(z)`, then `y = z.cross(x)`, then `x` and `y` are normalized,
and the matrix is assembled with `x`, `y`, `z` as the columns of the
top-left 3×3 block and `(-x·eye, -y·eye, -z·eye, 1)` as the last row. -/
def look_at (eye center up : Vec3) : Mat4 :=
  let z := Vec.normalize (Vec.sub eye center)
  let y0 := up
  let x0 := Vec3.cross y0 z
  let y1 := Vec3.cross z x0
  let x := Vec.normalize x0
  let y := Vec.normalize y1
  ![![x 0, y 0, z 0, 0],
    ![x 1, y 1, z 1, 0],
    ![x 2, y 2, z 2, 0],
    ![-(Vec.dot x eye), -(Vec.dot y eye), -(Vec.dot z eye), 1]]

/-- `impl Mul<Mat4> for Mat4` in `math.rs`: the triple loop
`result[i][j] += self[i][k] * other[k][j]` into a fresh zero matrix. -/
def mul (a b : Mat4) : Mat4 := fun i j => ∑ k, a i k * b k j

/-- `impl Mul<Vec4> for Mat4` in `math.rs`: the double loop
`result[i] += self[i][j] * vec[j]` into a fresh zero vector. -/
def mulVec (m : Mat4) (v : Vec4) : Vec4 := fun i => ∑ j, m i j * v j

/-- Modelled from the spec: `math.rs` has no `perspective` constructor and
none exists anywhere under `src/`, so the standard symmetric perspective
projection matrix described in the spec is modelled here: vertical field of
view `fovy` (radians), aspect ratio `aspect` (width/height), near/far clip
distances, with the column-vector convention used by `impl Mul<Vec4>`, so
that after the homogeneous divide a view-space depth of `-near` maps to
normalized device depth `-1` and `-far` maps to `+1`. -/
def perspective (fovy aspect near far : ℝ) : Mat4 :=
  let f := 1 / Real.tan (fovy / 2)
  ![![f / aspect, 0, 0, 0],
    ![0, f, 0, 0],
    ![0, 0, (far + near) / (near - far), 2 * far * near / (near - far)],
    ![0, 0, -1, 0]]

end Mat4

end GlTest

/-!
The duplicate linear-algebra code at the top of `src/main.rs`, translated
independently of the `math.rs` version.
-/

namespace MainRs

abbrev Vec4 := Fin 4 → ℝ

/-- `Vec4::zero` in `main.rs`: `Vec4([0.0, 0.0, 0.0, 0.0])`. -/
def Vec4.zero : Vec4 := ![0, 0, 0, 0]

abbrev Mat4 := Fin 4 → Fin 4 → ℝ

namespace Mat4

/-- `Mat4::zero` in `main.rs`. -/
def zero : Mat4 :=
  ![![0, 0, 0, 0],
    ![0, 0, 0, 0],
    ![0, 0, 0, 0],
    ![0, 0, 0, 0]]

/-- `Mat4::identity` in `main.rs`. -/
def identity : Mat4 :=
  ![![1, 0, 0, 0],
    ![0, 1, 0, 0],
    ![0, 0, 1, 0],
    ![0, 0, 0, 1]]

/-- `Mat4::scale` in `main.rs`. -/
def scale (x y z : ℝ) : Mat4 :=
  ![![x, 0, 0, 0],
    ![0, y, 0, 0],
    ![0, 0, z, 0],
    ![0, 0, 0, 1]]

/-- `Mat4::translate` in `main.rs`. -/
def translate (x y z : ℝ) : Mat4 :=
  ![![1, 0, 0, x],
    ![0, 1, 0, y],
    ![0, 0, 1, z],
    ![0, 0, 0, 1]]

/-- `Mat4::rotate_x` in `main.rs`. -/
def rotate_x (angle : ℝ) : Mat4 :=
  let cos := Real.cos angle
  let sin := Real.sin angle
  ![![1, 0, 0, 0],
    ![0, cos, -sin, 0],
    ![0, sin, cos, 0],
    ![0, 0, 0, 1]]

/-- `Mat4::rotate_y` in `main.rs`. -/
def rotate_y (angle : ℝ) : Mat4 :=
  let cos := Real.cos angle
  let sin := Real.sin angle
  ![![cos, 0, sin, 0],
    ![0, 1, 0, 0],
    ![-sin, 0, cos, 0],
    ![0, 0, 0, 1]]

/-- `Mat4::rotate_z` in `main.rs`. -/
def rotate_z (angle : ℝ) : Mat4 :=
  let cos := Real.cos angle
  let sin := Real.sin angle
  ![![cos, -sin, 0, 0],
    ![sin, cos, 0, 0],
    ![0, 0, 1, 0],
    ![0, 0, 0, 1]]

/-- `impl Mul<Mat4> for Mat4` in `main.rs`: the triple loop
`result[i][j] += self[i][k] * other[k][j]` into a fresh zero matrix. -/
def mul (a b : Mat4) : Mat4 := fun i j => ∑ k, a i k * b k j

/-- `impl Mul<Vec4> for Mat4` in `main.rs`: the double loop
`result[i] += self[i][j] * vec[j]` into a fresh zero vector. -/
def mulVec (m : Mat4) (v : Vec4) : Vec4 := fun i => ∑ j, m i j * v j

end Mat4

end MainRs

namespace GlTest

/-- Concrete evaluation of `Mat4::look_at` at `eye = (1,0,0)`,
`center = (0,0,0)`, `up = (0,0,1)`: the resulting matrix has the camera
basis as the columns of its top-left 3×3 block and the translation in its
last row. -/
lemma look_at_example_eval :
    Mat4.look_at ![1, 0, 0] ![0, 0, 0] ![0, 0, 1]
      = ![![0, 0, 1, 0], ![1, 0, 0, 0], ![0, 1, 0, 0], ![0, 0, -1, 1]] := by
  have hsub : Vec.sub (![1, 0, 0] : Vec3) ![0, 0, 0] = ![1, 0, 0] := by
    funext i
    fin_cases i <;>
      simp [Vec.sub, Matrix.cons_val_two, Matrix.vecHead, Matrix.vecTail]
  have hn1 : Vec.normalize (![1, 0, 0] : Vec3) = ![1, 0, 0] := by
    have hl : Vec.length (![1, 0, 0] : Vec3) = 1 := by
      simp [Vec.length, Vec.length_squared, Vec.dot, Fin.sum_univ_three]
    funext i
    simp [Vec.normalize, hl]
  have hx0 : Vec3.cross ![0, 0, 1] ![1, 0, 0] = ![0, 1, 0] := by
    funext i
    fin_cases i <;>
      simp [Vec3.cross, Matrix.cons_val_two, Matrix.vecHead, Matrix.vecTail]
  have hy1 : Vec3.cross ![1, 0, 0] ![0, 1, 0] = ![0, 0, 1] := by
    funext i
    fin_cases i <;>
      simp [Vec3.cross, Matrix.cons_val_two, Matrix.vecHead, Matrix.vecTail]
  have hn2 : Vec.normalize (![0, 1, 0] : Vec3) = ![0, 1, 0] := by
    have hl : Vec.length (![0, 1, 0] : Vec3) = 1 := by
      simp [Vec.length, Vec.length_squared, Vec.dot, Fin.sum_univ_three]
    funext i
    simp [Vec.normalize, hl]
  have hn3 : Vec.normalize (![0, 0, 1] : Vec3) = ![0, 0, 1] := by
    have hl : Vec.length (![0, 0, 1] : Vec3) = 1 := by
      simp [Vec.length, Vec.length_squared, Vec.dot, Fin.sum_univ_three]
    funext i
    simp [Vec.normalize, hl]
  show Mat4.look_at _ _ _ = _
  simp only [Mat4.look_at, hsub, hn1, hx0, hy1, hn2, hn3]
  funext i
  fin_cases i <;>
    simp [Vec.dot, Fin.sum_univ_three, Matrix.cons_val_two, Matrix.cons_val_three,
      Matrix.vecHead, Matrix.vecTail]

/-- Claim C1: for every `eye`, `center`, `up`, `Mat4::look_at` computes
exactly `z = normalize(eye - center)`, `x = cross(up, z)`,
`y = cross(z, x)`, then normalizes `x` and `y`, and returns the matrix
whose rows 0 to 2 are `(x i, y i, z i, 0)` (so `x`, `y`, `z` are the
columns of the top-left 3×3 block) and whose last row is
`(-dot x eye, -dot y eye, -dot z eye, 1)`. -/
theorem look_at_formula (eye center up : Vec3) :
    Mat4.look_at eye center up =
      (let z := Vec.normalize (Vec.sub eye center)
       let x0 := Vec3.cross up z
       let y0 := Vec3.cross z x0
       let x := Vec.normalize x0
       let y := Vec.normalize y0
       ![![x 0, y 0, z 0, 0],
         ![x 1, y 1, z 1, 0],
         ![x 2, y 2, z 2, 0],
         ![-(Vec.dot x eye), -(Vec.dot y eye), -(Vec.dot z eye), 1]]) := rfl

/-- Claim C2, counterexample: the matrix–vector product `impl Mul<Vec4>`
applied by `look_at(eye=(1,0,0), center=(0,0,0), up=(0,0,1))` to the
homogeneous `eye = (1,0,0,1)` does NOT give the camera-space origin
`(0,0,0,1)`: the code keeps the translation in the last ROW, which the
row-index-major product ignores for the first three result components. -/
theorem look_at_example_not_origin :
    Mat4.mulVec (Mat4.look_at ![1, 0, 0] ![0, 0, 0] ![0, 0, 1]) ![1, 0, 0, 1]
      ≠ ![0, 0, 0, 1] := by
  intro h
  have h1 := congrFun h 1
  rw [look_at_example_eval] at h1
  simp [Mat4.mulVec, Fin.sum_univ_four, Matrix.cons_val_two, Matrix.cons_val_three,
    Matrix.vecHead, Matrix.vecTail] at h1

/-- Claim C2, amended: `look_at(eye=(1,0,0), center=(0,0,0), up=(0,0,1))`
yields a matrix whose top-left 3×3 block is orthonormal (each row unit
length, rows mutually orthogonal); the matrix–vector product of
`impl Mul<Vec4>` maps the homogeneous eye `(1,0,0,1)` to `(0,1,0,1)`, not
to the origin, while the row-vector product `v * M` (summing over the row
index) maps it to the camera-space origin `(0,0,0,1)`. -/
theorem look_at_example_orthonormal :
    (∀ i j : Fin 3,
      Vec.dot
        (fun k => Mat4.look_at ![1, 0, 0] ![0, 0, 0] ![0, 0, 1] i.castSucc k.castSucc)
        (fun k => Mat4.look_at ![1, 0, 0] ![0, 0, 0] ![0, 0, 1] j.castSucc k.castSucc)
        = if i = j then 1 else 0) ∧
    Mat4.mulVec (Mat4.look_at ![1, 0, 0] ![0, 0, 0] ![0, 0, 1]) ![1, 0, 0, 1]
      = ![0, 1, 0, 1] ∧
    (∀ j : Fin 4,
      (∑ i, (![1, 0, 0, 1] : Vec4) i
          * Mat4.look_at ![1, 0, 0] ![0, 0, 0] ![0, 0, 1] i j)
        = (![0, 0, 0, 1] : Vec4) j) := by
  refine ⟨?_, ?_, ?_⟩
  · intro i j
    rw [look_at_example_eval]
    fin_cases i <;> fin_cases j <;>
      simp [Vec.dot, Fin.sum_univ_three, Matrix.cons_val_two, Matrix.cons_val_three,
        Matrix.vecHead, Matrix.vecTail, Fin.castSucc, Fin.castAdd, Fin.castLE]
  · rw [look_at_example_eval]
    funext i
    fin_cases i <;>
      simp [Mat4.mulVec, Fin.sum_univ_four, Matrix.cons_val_two, Matrix.cons_val_three,
        Matrix.vecHead, Matrix.vecTail]
  · intro j
    rw [look_at_example_eval]
    fin_cases j <;>
      simp [Fin.sum_univ_four, Matrix.cons_val_two, Matrix.cons_val_three,
        Matrix.vecHead, Matrix.vecTail]

/-- Claim C3: the spec-modelled `perspective(fovy = π/4, aspect = 4/3,
near = 1, far = 10)` maps a point at view-space depth `-near` to
normalized device depth `-1` and a point at depth `-far` to normalized
depth `+1`, after the homogeneous divide by the `w` component. -/
theorem perspective_ndc_example :
    (Mat4.mulVec (Mat4.perspective (Real.pi / 4) (4 / 3) 1 10) ![0, 0, -1, 1] 2)
        / (Mat4.mulVec (Mat4.perspective (Real.pi / 4) (4 / 3) 1 10) ![0, 0, -1, 1] 3)
      = -1 ∧
    (Mat4.mulVec (Mat4.perspective (Real.pi / 4) (4 / 3) 1 10) ![0, 0, -10, 1] 2)
        / (Mat4.mulVec (Mat4.perspective (Real.pi / 4) (4 / 3) 1 10) ![0, 0, -10, 1] 3)
      = 1 := by
  constructor <;>
    · simp [Mat4.perspective, Mat4.mulVec, Fin.sum_univ_four, Matrix.cons_val_two,
        Matrix.cons_val_three, Matrix.vecHead, Matrix.vecTail]
      norm_num

/-- Claim C4: `Mat4::identity` is a two-sided identity for the matrix
product `impl Mul<Mat4>`: for every matrix `a`, `identity * a = a` and
`a * identity = a` (exactly, in the real-number model). -/
theorem identity_mul_two_sided (a : Mat4) :
    Mat4.mul Mat4.identity a = a ∧ Mat4.mul a Mat4.identity = a := by
  constructor
  · funext i j
    simp only [Mat4.mul, Mat4.identity, Fin.sum_univ_four]
    fin_cases i <;>
      simp [Matrix.cons_val_two, Matrix.cons_val_three, Matrix.vecHead, Matrix.vecTail]
  · funext i j
    simp only [Mat4.mul, Mat4.identity, Fin.sum_univ_four]
    fin_cases j <;>
      simp [Matrix.cons_val_two, Matrix.cons_val_three, Matrix.vecHead, Matrix.vecTail]

/-- Claim C5: for all matrices `a`, `b` and every 4-vector `v`, applying
the product `a * b` of `impl Mul<Mat4>` to `v` with `impl Mul<Vec4>`
equals applying `a` to the result of applying `b` to `v`. -/
theorem mul_mulVec_assoc (a b : Mat4) (v : Vec4) :
    Mat4.mulVec (Mat4.mul a b) v = Mat4.mulVec a (Mat4.mulVec b v) := by
  funext i
  simp only [Mat4.mulVec, Mat4.mul, Fin.sum_univ_four]
  ring

/-- Claim C6: for every vector with nonzero length, `VecN::normalize`
divides every component by the original length, and afterwards the length
is exactly `1` in the real-number model. -/
theorem normalize_unit_length {n : ℕ} (v : Vec n) (h : Vec.length v ≠ 0) :
    (∀ i, Vec.normalize v i = v i / Vec.length v) ∧
      Vec.length (Vec.normalize v) = 1 := by
  constructor
  · intro i; rfl
  · have hS : 0 ≤ Vec.length_squared v := by
      show 0 ≤ ∑ i, v i * v i
      exact Finset.sum_nonneg fun i _ => mul_self_nonneg _
    have hmul : Vec.length v * Vec.length v = Vec.length_squared v :=
      Real.mul_self_sqrt hS
    have hSne : Vec.length_squared v ≠ 0 := by
      intro h0
      apply h
      simp [Vec.length, h0]
    have hone : Vec.length_squared (Vec.normalize v) = 1 := by
      show (∑ i, Vec.normalize v i * Vec.normalize v i) = 1
      have hdiv : ∀ i, Vec.normalize v i * Vec.normalize v i
          = v i * v i / (Vec.length v * Vec.length v) := by
        intro i
        simp [Vec.normalize, div_mul_div_comm]
      rw [Finset.sum_congr rfl fun i _ => hdiv i, ← Finset.sum_div, hmul]
      exact div_self hSne
    simp [Vec.length, hone]

/-- Witness for C6 at the concrete vector `(0, 3, 4)`, whose length is
`sqrt 25 = 5 ≠ 0`. -/
theorem normalize_unit_length_witness :
    Vec.length (![0, 3, 4] : Vec3) ≠ 0 ∧
      ((∀ i, Vec.normalize (![0, 3, 4] : Vec3) i
          = (![0, 3, 4] : Vec3) i / Vec.length ![0, 3, 4]) ∧
        Vec.length (Vec.normalize (![0, 3, 4] : Vec3)) = 1) := by
  have hsq : Vec.length_squared (![0, 3, 4] : Vec3) = 25 := by
    simp [Vec.length_squared, Vec.dot, Fin.sum_univ_three, Matrix.cons_val_two,
      Matrix.vecHead, Matrix.vecTail]
    norm_num
  have h : Vec.length (![0, 3, 4] : Vec3) ≠ 0 := by
    rw [Vec.length, hsq, Real.sqrt_ne_zero']
    norm_num
  exact ⟨h, normalize_unit_length ![0, 3, 4] h⟩

/-- Claim C8: the cross product of `Vec3::cross` is anticommutative, and
its result is orthogonal (exactly, in the real-number model) to both
inputs under `VecN::dot`. -/
theorem cross_anticomm_orthogonal (a b : Vec3) :
    Vec3.cross a b = -(Vec3.cross b a) ∧
      Vec.dot (Vec3.cross a b) a = 0 ∧ Vec.dot (Vec3.cross a b) b = 0 := by
  refine ⟨?_, ?_, ?_⟩
  · funext i
    fin_cases i <;>
      simp [Vec3.cross, Matrix.cons_val_two, Matrix.vecHead, Matrix.vecTail] <;> ring
  · simp [Vec.dot, Vec3.cross, Fin.sum_univ_three, Matrix.cons_val_two,
      Matrix.vecHead, Matrix.vecTail]
    ring
  · simp [Vec.dot, Vec3.cross, Fin.sum_univ_three, Matrix.cons_val_two,
      Matrix.vecHead, Matrix.vecTail]
    ring

/-- Claim C9: with `S = scale(2,2,2)`, `T = translate(1,2,3)` and
`v = (3,3,3,1)`, the product `(T * S) * v` is exactly `(7, 8, 9, 1)` (the
scenario of the `test_math` unit test). -/
theorem translate_scale_example :
    Mat4.mulVec (Mat4.mul (Mat4.translate 1 2 3) (Mat4.scale 2 2 2)) ![3, 3, 3, 1]
      = ![7, 8, 9, 1] := by
  funext i
  fin_cases i <;>
    simp [Mat4.mulVec, Mat4.mul, Mat4.translate, Mat4.scale, Fin.sum_univ_four,
      Matrix.cons_val_two, Matrix.cons_val_three, Matrix.vecHead, Matrix.vecTail] <;>
    norm_num

/-- Claim C10: the duplicate `Vec4`/`Mat4` implementation in `main.rs` is
extensionally equal to the one in `math.rs`: `zero`, `identity`, `scale`,
`translate`, `rotate_x`, `rotate_y`, `rotate_z`, the matrix–matrix product
and the matrix–vector product agree on all inputs. -/
theorem mainrs_matches_mathrs (x y z angle : ℝ) (a b : MainRs.Mat4) (v : MainRs.Vec4) :
    MainRs.Vec4.zero = GlTest.Vec.zero 4 ∧
    MainRs.Mat4.zero = GlTest.Mat4.zero ∧
    MainRs.Mat4.identity = GlTest.Mat4.identity ∧
    MainRs.Mat4.scale x y z = GlTest.Mat4.scale x y z ∧
    MainRs.Mat4.translate x y z = GlTest.Mat4.translate x y z ∧
    MainRs.Mat4.rotate_x angle = GlTest.Mat4.rotate_x angle ∧
    MainRs.Mat4.rotate_y angle = GlTest.Mat4.rotate_y angle ∧
    MainRs.Mat4.rotate_z angle = GlTest.Mat4.rotate_z angle ∧
    MainRs.Mat4.mul a b = GlTest.Mat4.mul a b ∧
    MainRs.Mat4.mulVec a v = GlTest.Mat4.mulVec a v := by
  refine ⟨?_, rfl, rfl, rfl, rfl, rfl, rfl, rfl, rfl, rfl⟩
  funext i
  fin_cases i <;>
    simp [MainRs.Vec4.zero, GlTest.Vec.zero, Matrix.cons_val_two, Matrix.cons_val_three,
      Matrix.vecHead, Matrix.vecTail]

end GlTest

end
